import Mathlib

/-!
Verification of the provisioning and conversation orchestration engine of
`src/bot.js` (the interactive chat-bot front end, lines 1-578).

Shallow embedding conventions:
- Network responses are nondeterministic inputs, so every remote call takes
  its observed outcome from an explicit environment record.  A value of
  `none` at a call site stands for the transport throwing (a network
  failure); `some v` stands for a response that was delivered with payload
  `v`.
- JavaScript objects mutated in place become explicit state passed and
  returned.
- `Math.floor(Math.random() * n)` is modelled by `p % n` for an arbitrary
  environment-chosen `p : Nat`, which ranges over exactly the indices
  `0 .. n-1` the source can draw.
- Exceptions are `Except.error`; the `try/catch` wrapper of the source is a
  `match` that turns every error into the `false` result, keeping the
  mutations performed before the throw (as the JS `catch` does).
-/

/-- An identity record, as built by `createWallet` in `src/bot.js`
(lines 125-137).  The cryptographic fields are opaque strings here: their
values never influence control flow once remote responses are drawn from
the environment. -/
structure Wallet where
  address : String
  privateKey : String
  mnemonic : String
  registered : Bool
  chats : Nat
  jwt : Option String
  topics : List String
  usedTopics : List String
deriving DecidableEq, Repr

/-- `createWallet` (src/bot.js lines 125-137): a fresh identity with the
given generated credentials, unregistered, zero chats, no token, empty
topic lists. -/
def createWallet (address privateKey mnemonic : String) : Wallet :=
  { address := address
    privateKey := privateKey
    mnemonic := mnemonic
    registered := false
    chats := 0
    jwt := none
    topics := []
    usedTopics := [] }

/-- Environment of one `registerWallet` run: the observed outcome of each
of the four remote calls (src/bot.js lines 146-182).
- `step1`: the initial unauthenticated `user_info` GET succeeded.
- `connectToken`: `none` = the `evm_connect` POST threw;
  `some none` = it responded but the body carried no (truthy) token;
  `some (some t)` = it responded with token `t`.
- `bindOk`: the `bind_invite` GET succeeded.
- `userInfoCode`: `none` = the final `user_info` GET threw;
  `some c` = it responded with `data.code = c`. -/
structure RegEnv where
  step1 : Bool
  connectToken : Option (Option String)
  bindOk : Bool
  userInfoCode : Option Int
deriving DecidableEq, Repr

/-- The body of the `try` block of `registerWallet` (src/bot.js lines
147-177), with the thrown exception made explicit.  The wallet returned
alongside the result carries the mutations performed before any throw:
in particular `wallet.jwt` is assigned (line 163) before the
`bind_invite` call, so it survives a later failure. -/
def registerWalletInner (env : RegEnv) (w : Wallet) : Except String Bool × Wallet :=
  if env.step1 = false then (Except.error "network", w)
  else
    match env.connectToken with
    | none => (Except.error "network", w)
    | some none => (Except.error "Failed to get authentication token", w)
    | some (some tok) =>
      let w1 := { w with jwt := some tok }
      if env.bindOk = false then (Except.error "network", w1)
      else
        match env.userInfoCode with
        | none => (Except.error "network", w1)
        | some code =>
          if code = 200 then (Except.ok true, { w1 with registered := true })
          else (Except.ok false, w1)

/-- `registerWallet` (src/bot.js lines 146-182): the `try` body wrapped in
the `catch` that logs and returns `false`, keeping the mutations already
applied. -/
def registerWallet (env : RegEnv) (w : Wallet) : Bool × Wallet :=
  match registerWalletInner env w with
  | (Except.ok b, w1) => (b, w1)
  | (Except.error _, w1) => (false, w1)

/-- A registration environment in which some handshake step failed: a
network failure at any of the four remote calls, or the authentication
response lacking a token. -/
def regFailure (env : RegEnv) : Prop :=
  env.step1 = false ∨ env.connectToken = none ∨ env.connectToken = some none ∨
    env.bindOk = false ∨ env.userInfoCode = none

instance (env : RegEnv) : Decidable (regFailure env) := by
  unfold regFailure; infer_instance

/-- The `available` list of `getRandomTopic` (src/bot.js line 186): the
topics not yet marked used. -/
def availList (w : Wallet) : List String :=
  w.topics.filter (fun t => !(w.usedTopics.contains t))

/-- `getRandomTopic` (src/bot.js lines 184-195).  The draw
`Math.floor(Math.random() * n)` is modelled by `p % n` for the
environment-chosen `p`.  With no topics, the fixed fallback is returned
and nothing is mutated.  With an unused topic available, one is drawn
from the unused ones and appended to `usedTopics`.  With every topic
used, `usedTopics` is reset to empty and a topic is drawn from the full
list without being marked used. -/
def getRandomTopic (p : Nat) (w : Wallet) : String × Wallet :=
  if w.topics.isEmpty then ("Default topic", w)
  else
    if (availList w).isEmpty then
      (w.topics.getD (p % w.topics.length) "", { w with usedTopics := [] })
    else
      let topic := (availList w).getD (p % (availList w).length) ""
      (topic, { w with usedTopics := w.usedTopics ++ [topic] })

/-- A sequence of `getRandomTopic` calls, one per environment draw in
`picks`, returning the emitted topics in order and the final wallet. -/
def runSelector : List Nat → Wallet → List String × Wallet
  | [], w => ([], w)
  | p :: ps, w =>
    let r := getRandomTopic p w
    let rest := runSelector ps r.2
    (r.1 :: rest.1, rest.2)

/-- Observed outcome of one conversation turn: the topic draw `pick` and
the `conversations` POST outcome (`none` = the transport threw,
`some s` = it responded with HTTP status `s`). -/
structure ChatTurn where
  pick : Nat
  status : Option Int
deriving DecidableEq, Repr

/-- `performChat` (src/bot.js lines 197-228): with no session token the
turn is a logged no-op returning `false`; otherwise a topic is drawn
(mutating `usedTopics` even if the POST then throws), and on a status-200
response `chats` is incremented and `true` returned. -/
def performChat (turn : ChatTurn) (w : Wallet) : Bool × Wallet :=
  match w.jwt with
  | none => (false, w)
  | some _ =>
    let r := getRandomTopic turn.pick w
    match turn.status with
    | none => (false, r.2)
    | some s =>
      if s = 200 then (true, { r.2 with chats := r.2.chats + 1 })
      else (false, r.2)

/-- The turn loop of `completeDailyChats` (src/bot.js lines 232-239):
`fuel` turns remain, `i` is the current turn index; the loop stops at the
first turn whose `performChat` returned `false`. -/
def chatGo (turns : Nat → ChatTurn) : Nat → Nat → Wallet → Wallet
  | 0, _, w => w
  | fuel + 1, i, w =>
    let r := performChat (turns i) w
    if r.1 then chatGo turns fuel (i + 1) r.2 else r.2

/-- `completeDailyChats` (src/bot.js lines 230-241): up to 5 sequential
turns, stopping at the first failure. -/
def completeDailyChats (turns : Nat → ChatTurn) (w : Wallet) : Wallet :=
  chatGo turns 5 0 w

/-- Length of the initial run of turns whose `conversations` call
responds with status 200, over `fuel` turns starting at index `i`.  With
a session token present, this is exactly the number of successful turns
the loop performs. -/
def successRun (turns : Nat → ChatTurn) : Nat → Nat → Nat
  | 0, _ => 0
  | fuel + 1, i =>
    if (turns i).status = some 200 then successRun turns fuel (i + 1) + 1 else 0

/-- A per-actor usage record of `usage.json`:
`{ date: 'YYYY-MM-DD', count: number }` (src/bot.js line 58). -/
structure UsageRec where
  date : String
  count : Nat
deriving DecidableEq, Repr

/-- Environment of one unit of the orchestration loop (one iteration of
the `for` loop at src/bot.js lines 277-311): the value of the cancel flag
observed at the checkpoint (line 279), the credentials the entropy source
yields for `createWallet`, and the remote outcomes of the registration
handshake and of the conversation turns. -/
structure UnitEnv where
  cancel : Bool
  address : String
  privateKey : String
  mnemonic : String
  reg : RegEnv
  turns : Nat → ChatTurn

/-- The state touched by `processUserRequest` for one actor: the actor's
usage record (`usageData[chatId]`, `none` when absent), the lifetime
counter `stats.totalWalletRequests`, and the contents of the actor's
persisted wallet file `wallet_{chatId}.json`. -/
structure BotState where
  usage : Option UsageRec
  totalWalletRequests : Nat
  saved : List Wallet
deriving DecidableEq, Repr

/-- Result of the orchestration loop: the usage record, wallet file, the
`createdWallets` accumulator, and whether the admin-cancelled message was
sent (the loop broke at a checkpoint). -/
structure LoopOut where
  usage : UsageRec
  saved : List Wallet
  produced : List Wallet
  cancelled : Bool
deriving DecidableEq, Repr

/-- Overall outcome of `processUserRequest`: final state pieces, the
produced wallets, the used-count carried by the denial message when the
quota gate denied (`none` when it granted), and the cancellation
indicator. -/
structure ProcOutcome where
  usage : UsageRec
  totalWalletRequests : Nat
  saved : List Wallet
  produced : List Wallet
  deniedUsed : Option Nat
  cancelled : Bool
deriving DecidableEq, Repr

/-- The day-normalisation at src/bot.js lines 266-268: if the actor has
no record or the stored date differs from today, the record becomes
`{ date: today, count: 0 }`. -/
def normalizeUsage (u : Option UsageRec) (today : String) : UsageRec :=
  match u with
  | some r => if r.date = today then r else { date := today, count := 0 }
  | none => { date := today, count := 0 }

/-- The wallet a single loop unit produces (src/bot.js lines 283-292):
create, attach the topics, register, and on successful registration run
the daily chats. -/
def unitWallet (env : Nat → UnitEnv) (topics : List String) (i : Nat) : Wallet :=
  let u := env i
  let w0 := { createWallet u.address u.privateKey u.mnemonic with topics := topics }
  let r := registerWallet u.reg w0
  if r.1 then completeDailyChats u.turns r.2 else r.2

/-- The `for` loop of `processUserRequest` (src/bot.js lines 277-311).
Each iteration: cancel checkpoint (break, reporting cancellation), wallet
creation, referral-code length check (break), registration and chats,
append to the accumulator and to the persisted file, increment the usage
count. -/
def procLoop (env : Nat → UnitEnv) (referralCode : String) (topics : List String) :
    Nat → Nat → UsageRec → List Wallet → List Wallet → LoopOut
  | 0, _, usage, saved, acc => ⟨usage, saved, acc, false⟩
  | fuel + 1, i, usage, saved, acc =>
    if (env i).cancel then ⟨usage, saved, acc, true⟩
    else if referralCode.length ≠ 6 then ⟨usage, saved, acc, false⟩
    else
      let w := unitWallet env topics i
      procLoop env referralCode topics fuel (i + 1)
        ⟨usage.date, usage.count + 1⟩ (saved ++ [w]) (acc ++ [w])

/-- `processUserRequest` (src/bot.js lines 263-327): day-normalise the
usage record, deny if the same-day count plus the requested amount
exceeds the ceiling (the denial message carries the current used count),
otherwise charge the lifetime request counter and run the unit loop. -/
def processUserRequest (maxLimit : Nat) (today : String) (env : Nat → UnitEnv)
    (count : Nat) (referralCode : String) (topics : List String)
    (st : BotState) : ProcOutcome :=
  let u0 := normalizeUsage st.usage today
  if maxLimit < u0.count + count then
    { usage := u0
      totalWalletRequests := st.totalWalletRequests
      saved := st.saved
      produced := []
      deniedUsed := some u0.count
      cancelled := false }
  else
    let out := procLoop env referralCode topics count 0 u0 st.saved []
    { usage := out.usage
      totalWalletRequests := st.totalWalletRequests + count
      saved := out.saved
      produced := out.produced
      deniedUsed := none
      cancelled := out.cancelled }

/-- Stages of a live per-actor session (`userState[chatId].stage`,
src/bot.js lines 246, 260, 492-526).  The transient `processing` value is
assigned and the record deleted in the same handler run (lines 521-524),
so a stored session is only ever observed in one of these three stages. -/
inductive Stage where
  | awaitingCount
  | awaitingRef
  | awaitingTopics
deriving DecidableEq, Repr

/-- A per-actor session record `userState[chatId]`
(src/bot.js line 246). -/
structure Session where
  stage : Stage
  count : Nat
  referralCode : String
  topics : List String
deriving DecidableEq, Repr

/-- Observable machine state for one actor: the session record (`none`
when `userState[chatId]` is absent), the number of orchestration jobs
launched for this actor (calls of `processUserRequest`, line 523, which
is invoked without `await`, fire-and-forget), and the number of those
jobs that have completed. -/
structure SMState where
  session : Option Session
  launched : Nat
  completed : Nat
deriving DecidableEq, Repr

/-- An event visible to the per-actor machine: an inbound text message,
or the asynchronous completion of a previously launched job. -/
inductive SMEvent where
  | msg (text : String)
  | jobDone
deriving DecidableEq, Repr

/-- The whitespace trim `text.trim()`, implemented on the character
list so that it evaluates by kernel reduction. -/
def charsTrim (l : List Char) : List Char :=
  ((l.dropWhile Char.isWhitespace).reverse.dropWhile Char.isWhitespace).reverse

/-- `text.trim()` of JavaScript. -/
def strTrim (s : String) : String :=
  ⟨charsTrim s.data⟩

/-- `text.split(",")` of JavaScript: split at every comma, keeping empty
pieces (the second argument accumulates the current piece reversed). -/
def splitCommaChars : List Char → List Char → List String
  | [], cur => [⟨cur.reverse⟩]
  | c :: rest, cur =>
    if c = ',' then ⟨cur.reverse⟩ :: splitCommaChars rest []
    else splitCommaChars rest (c :: cur)

/-- `text.split(",")` of JavaScript. -/
def splitComma (s : String) : List String :=
  splitCommaChars s.data []

/-- Decimal digit accumulation for `parseInt`. -/
def parseDecimal : List Char → Nat → Option Nat
  | [], acc => some acc
  | c :: rest, acc =>
    if c.isDigit then parseDecimal rest (acc * 10 + (c.toNat - 48)) else none

/-- `parseInt` of the count message (src/bot.js line 493), modelled on
canonical decimal input: `none` plays the role of `NaN`. -/
def parseCount (text : String) : Option Nat :=
  match text.data with
  | [] => none
  | _ => parseDecimal text.data 0

/-- The topics split at src/bot.js line 515:
`text.split(",").map(t => t.trim()).filter(t => t.length > 0)`. -/
def splitTopics (text : String) : List String :=
  ((splitComma text).map strTrim).filter (fun t => t.length ≠ 0)

/-- The non-admin, non-blocked message handler (src/bot.js lines
486-526).  `/start` (via `handleStart`, line 260) unconditionally
installs a fresh `awaiting_count` session.  With no session the message
is ignored (line 490).  `awaiting_count` accepts an integer in
`[1, maxLimit]`; `awaiting_ref` accepts a trimmed string of length 6;
`awaiting_topics` accepts a non-empty topic list, launches the job
without awaiting it, and deletes the session record (lines 523-524). -/
def stepMsg (maxLimit : Nat) (text : String) (s : SMState) : SMState :=
  if text = "/start" then
    { s with session := some ⟨Stage.awaitingCount, 0, "", []⟩ }
  else
    match s.session with
    | none => s
    | some sess =>
      match sess.stage with
      | Stage.awaitingCount =>
        match parseCount text with
        | none => s
        | some n =>
          if n = 0 ∨ maxLimit < n then s
          else { s with session := some ⟨Stage.awaitingRef, n, "", []⟩ }
      | Stage.awaitingRef =>
        if (strTrim text).length = 6 then
          { s with session := some ⟨Stage.awaitingTopics, sess.count, strTrim text, []⟩ }
        else s
      | Stage.awaitingTopics =>
        let topics := splitTopics text
        if topics.isEmpty then s
        else { s with session := none, launched := s.launched + 1 }

/-- One machine event: a message is handled synchronously; a job
completion only bumps the completion counter (the handler never consults
it). -/
def stepEvent (maxLimit : Nat) (s : SMState) : SMEvent → SMState
  | SMEvent.msg t => stepMsg maxLimit t s
  | SMEvent.jobDone => { s with completed := s.completed + 1 }

/-- Run a sequence of events from a state. -/
def runEvents (maxLimit : Nat) (evs : List SMEvent) (s : SMState) : SMState :=
  evs.foldl (stepEvent maxLimit) s

/-- The machine state of an actor that has never interacted. -/
def initSM : SMState :=
  ⟨none, 0, 0⟩

/-- Jobs launched for the actor and not yet completed. -/
def activeJobs (s : SMState) : Nat :=
  s.launched - s.completed

/-- Number of `/start` messages in an event sequence. -/
def countStarts (evs : List SMEvent) : Nat :=
  (evs.filter (fun e =>
    match e with
    | SMEvent.msg t => t = "/start"
    | SMEvent.jobDone => false)).length

/-- 1 when a session record is present, else 0. -/
def sessBit (s : SMState) : Nat :=
  match s.session with
  | some _ => 1
  | none => 0

/-- The shared in-memory state the admin Control Plane mutates
(src/bot.js lines 57-77): the block list, the set of actor ids whose
`pendingRequests[id].cancel` flag is `true`, and the configuration
scalars.  `pendingRequests` entries are only ever written at line 428,
with `{ cancel: true }`. -/
structure GlobalState where
  blockedUsers : List Int
  pendingCancel : List Int
  welcome : String
  suffix : String
  maxLimit : Nat
  globalCaption : String
deriving DecidableEq, Repr

/-- The state-mutating admin operations (the `adminState` stage branches
at src/bot.js lines 388-483 plus the read-only `show_stats` and
`broadcast` actions). -/
inductive AdminOp where
  | block (target : Int)
  | unblock (target : Int)
  | cancel (target : Int)
  | changeWelcome (text : String)
  | setSuffix (text : String)
  | changeMaxLimit (n : Nat)
  | setGlobalCaption (text : String)
  | showStats
  | broadcast (text : String)
deriving DecidableEq, Repr

/-- Effect of each admin operation on the shared state (src/bot.js lines
390-480).  `cancel` sets `pendingRequests[target] = { cancel: true }`
(line 428); no branch anywhere deletes a `pendingRequests` entry or sets
its flag back to `false`. -/
def applyAdminOp (s : GlobalState) : AdminOp → GlobalState
  | AdminOp.block target =>
    if s.blockedUsers.contains target then s
    else { s with blockedUsers := s.blockedUsers ++ [target] }
  | AdminOp.unblock target =>
    { s with blockedUsers := s.blockedUsers.filter (fun i => i ≠ target) }
  | AdminOp.cancel target =>
    if s.pendingCancel.contains target then s
    else { s with pendingCancel := s.pendingCancel ++ [target] }
  | AdminOp.changeWelcome text => { s with welcome := text }
  | AdminOp.setSuffix text => { s with suffix := text }
  | AdminOp.changeMaxLimit n =>
    if n = 0 then s else { s with maxLimit := n }
  | AdminOp.setGlobalCaption text => { s with globalCaption := text }
  | AdminOp.showStats => s
  | AdminOp.broadcast _ => s

/-- A sequence of admin operations applied in order. -/
def applyAdminOps (s : GlobalState) (ops : List AdminOp) : GlobalState :=
  ops.foldl applyAdminOp s

/-- The wallets units `i, i+1, ..., i+k-1` of the loop produce, in
order. -/
def unitsFrom (env : Nat → UnitEnv) (topics : List String) : Nat → Nat → List Wallet
  | _, 0 => []
  | i, k + 1 => unitWallet env topics i :: unitsFrom env topics (i + 1) k

/-- A concrete unit environment for witnesses: cancel flag `c`, fixed
credentials, a fully successful handshake, all turns responding 200. -/
def sampleUnitEnv (c : Bool) : UnitEnv :=
  { cancel := c
    address := "addr"
    privateKey := "key"
    mnemonic := "mn"
    reg := ⟨true, some (some "tok"), true, some 200⟩
    turns := fun _ => ⟨0, some 200⟩ }

/-- The unused-topic set as a finite set. -/
def availSet (w : Wallet) : Finset String :=
  (availList w).toFinset

/-- C3: for every identity and referral code, the Registration Client
returns the boolean `false` and never propagates an exception when any of
its four handshake steps fails (network failure at any step, or the
authentication response lacking a token); in every such failure case the
registered flag is left as it was, in particular `false` stays `false`.
The second conjunct is the catch clause: every exception of the inner
run is converted into the `false` return, never rethrown. -/
theorem registration_failure_is_boolean_false :
    (∀ (env : RegEnv) (w : Wallet), regFailure env →
      (registerWallet env w).1 = false ∧
      (registerWallet env w).2.registered = w.registered) ∧
    (∀ (env : RegEnv) (w : Wallet) (s : String) (w1 : Wallet),
      registerWalletInner env w = (Except.error s, w1) →
      registerWallet env w = (false, w1)) := by
  constructor
  · rintro ⟨s1, ct, b, uic⟩ w hf
    rcases s1 <;> rcases ct with _ | (_ | t) <;> rcases b <;> rcases uic with _ | c <;>
      simp_all [registerWallet, registerWalletInner, regFailure]
  · intro env w s w1 h
    simp [registerWallet, h]

/-- Witness for C3: a run whose very first call fails returns `false`. -/
theorem registration_failure_is_boolean_false_witness :
    regFailure ⟨false, none, false, none⟩ ∧
    (registerWallet ⟨false, none, false, none⟩ (createWallet "a" "k" "m")).1 = false :=
  ⟨Or.inl rfl,
    (registration_failure_is_boolean_false.1 ⟨false, none, false, none⟩
      (createWallet "a" "k" "m") (Or.inl rfl)).1⟩

/-- C6: starting from an unregistered identity, `registered` is `true`
after `registerWallet` exactly when the four-call handshake succeeded
end-to-end with the final profile re-query reporting code 200; and
whenever `registered` was set, the call also returned `true`. -/
theorem registered_only_after_full_handshake :
    ∀ (env : RegEnv) (w : Wallet), w.registered = false →
      (((registerWallet env w).2.registered = true) ↔
        (env.step1 = true ∧ (∃ t, env.connectToken = some (some t)) ∧
          env.bindOk = true ∧ env.userInfoCode = some 200)) ∧
      ((registerWallet env w).2.registered = true → (registerWallet env w).1 = true) := by
  rintro ⟨s1, ct, b, uic⟩ w hw
  rcases s1 <;> rcases ct with _ | (_ | t) <;> rcases b <;> rcases uic with _ | c <;>
    (try by_cases hc : c = 200) <;> simp_all [registerWallet, registerWalletInner]

/-- Witness for C6: a fully successful handshake registers the
identity. -/
theorem registered_only_after_full_handshake_witness :
    (createWallet "a" "k" "m").registered = false ∧
    (registerWallet ⟨true, some (some "tok"), true, some 200⟩
      (createWallet "a" "k" "m")).2.registered = true :=
  ⟨rfl,
    (registered_only_after_full_handshake ⟨true, some (some "tok"), true, some 200⟩
      (createWallet "a" "k" "m") rfl).1.mpr ⟨rfl, ⟨"tok", rfl⟩, rfl, rfl⟩⟩

/-- C10: registration is not atomic on failure.  When the first three
spec steps succeed (profile query, signature, authentication yielding
token `t`) but the run then fails (the invite binding throws, or the
final re-query does not report code 200), the call returns `false` and
`registered` stays `false`, yet the session token `jwt` remains set to
`t`. -/
theorem registration_keeps_token_on_late_failure :
    ∀ (env : RegEnv) (w : Wallet) (t : String), w.registered = false →
      env.step1 = true → env.connectToken = some (some t) →
      (env.bindOk = false ∨ env.userInfoCode ≠ some 200) →
      (registerWallet env w).1 = false ∧
      (registerWallet env w).2.registered = false ∧
      (registerWallet env w).2.jwt = some t := by
  rintro ⟨s1, ct, b, uic⟩ w t hw h1 hct hfail
  subst h1
  cases hct
  rcases b <;> rcases uic with _ | c <;>
    (try by_cases hc : c = 200) <;> simp_all [registerWallet, registerWalletInner]

/-- Witness for C10: binding fails after a token was obtained; the token
is retained while `registered` stays `false`. -/
theorem registration_keeps_token_on_late_failure_witness :
    (createWallet "a" "k" "m").registered = false ∧
    (registerWallet ⟨true, some (some "tok"), false, none⟩
      (createWallet "a" "k" "m")).2.jwt = some "tok" :=
  ⟨rfl,
    (registration_keeps_token_on_late_failure ⟨true, some (some "tok"), false, none⟩
      (createWallet "a" "k" "m") "tok" rfl rfl rfl (Or.inl rfl)).2.2⟩

/-- The topic selector only touches `usedTopics`: `chats` and `jwt` are
unchanged. -/
theorem getRandomTopic_fields (p : Nat) (w : Wallet) :
    (getRandomTopic p w).2.chats = w.chats ∧ (getRandomTopic p w).2.jwt = w.jwt := by
  simp only [getRandomTopic]
  split
  · exact ⟨rfl, rfl⟩
  · split <;> exact ⟨rfl, rfl⟩

/-- One turn, given a session token: it succeeds exactly on a status-200
response, increments `chats` exactly on success, and keeps the token. -/
theorem performChat_spec (turn : ChatTurn) (w : Wallet) (t : String)
    (hw : w.jwt = some t) :
    (performChat turn w).1 = decide (turn.status = some 200) ∧
    (performChat turn w).2.chats =
      (if turn.status = some 200 then w.chats + 1 else w.chats) ∧
    (performChat turn w).2.jwt = some t := by
  have hg := getRandomTopic_fields turn.pick w
  unfold performChat
  rw [hw]
  cases hs : turn.status with
  | none => simp [hg.1, hg.2, hw]
  | some s =>
    by_cases h200 : s = 200 <;> simp [h200, hg.1, hg.2, hw]

/-- The number of successful turns never exceeds the remaining fuel. -/
theorem successRun_le (turns : Nat → ChatTurn) :
    ∀ (fuel i : Nat), successRun turns fuel i ≤ fuel := by
  intro fuel
  induction fuel with
  | zero => intro i; simp [successRun]
  | succ n ih =>
    intro i
    simp only [successRun]
    split
    · exact Nat.succ_le_succ (ih (i + 1))
    · exact Nat.zero_le _

/-- The turn loop adds exactly the length of the initial run of
successful turns to `chats`, provided a session token is present. -/
theorem chatGo_chats (turns : Nat → ChatTurn) (t : String) :
    ∀ (fuel i : Nat) (w : Wallet), w.jwt = some t →
      (chatGo turns fuel i w).chats = w.chats + successRun turns fuel i := by
  intro fuel
  induction fuel with
  | zero => intro i w _; simp [chatGo, successRun]
  | succ n ih =>
    intro i w hw
    obtain ⟨h1, h2, h3⟩ := performChat_spec (turns i) w t hw
    by_cases hs : (turns i).status = some 200
    · have hb : (performChat (turns i) w).1 = true := by rw [h1, hs]; simp
      simp only [chatGo, hb, if_true]
      rw [ih (i + 1) _ h3, h2]
      simp only [successRun, if_pos hs]
      omega
    · have hb : (performChat (turns i) w).1 = false := by rw [h1]; simp [hs]
      simp only [chatGo, hb, Bool.false_eq_true, if_false]
      rw [h2, if_neg hs]
      simp [successRun, hs]

/-- The first failed turn ends the run: if turns `0 .. j-1` respond 200
and turn `j` does not, the success run over `fuel > j` turns is exactly
`j`. -/
theorem successRun_first_fail (turns : Nat → ChatTurn) :
    ∀ (j fuel i : Nat), j < fuel →
      (∀ k, k < j → (turns (i + k)).status = some 200) →
      (turns (i + j)).status ≠ some 200 →
      successRun turns fuel i = j := by
  intro j
  induction j with
  | zero =>
    intro fuel i hf hk hfail
    cases fuel with
    | zero => omega
    | succ n =>
      simp only [successRun]
      rw [if_neg (by simpa using hfail)]
  | succ j ih =>
    intro fuel i hf hk hfail
    cases fuel with
    | zero => omega
    | succ n =>
      have h0 : (turns i).status = some 200 := by
        have h := hk 0 (by omega)
        simpa using h
      simp only [successRun, if_pos h0]
      have hstep : successRun turns n (i + 1) = j := by
        refine ih n (i + 1) (by omega) ?_ ?_
        · intro k hk2
          have heq : i + 1 + k = i + (k + 1) := by omega
          rw [heq]
          exact hk (k + 1) (by omega)
        · have heq : i + 1 + j = i + (j + 1) := by omega
          rw [heq]
          exact hfail
      omega

/-- C7: for every identity with a session token, the Conversation Runner
executes at most 5 sequential turns, increments `chats` exactly once per
successful turn (so by exactly the length of the initial run of
successful responses), terminates the loop at the first failed turn (if
turn `j` is the first failure, exactly `j` increments happen), the count
only increases, and from a fresh identity it never exceeds 5. -/
theorem conversation_runner_bounds :
    ∀ (turns : Nat → ChatTurn) (w : Wallet) (t : String), w.jwt = some t →
      (completeDailyChats turns w).chats = w.chats + successRun turns 5 0 ∧
      successRun turns 5 0 ≤ 5 ∧
      w.chats ≤ (completeDailyChats turns w).chats ∧
      (w.chats = 0 → (completeDailyChats turns w).chats ≤ 5) ∧
      (∀ j, j < 5 → (∀ k, k < j → (turns k).status = some 200) →
        (turns j).status ≠ some 200 →
        (completeDailyChats turns w).chats = w.chats + j) := by
  intro turns w t hw
  have hmain : (completeDailyChats turns w).chats = w.chats + successRun turns 5 0 :=
    chatGo_chats turns t 5 0 w hw
  have hle : successRun turns 5 0 ≤ 5 := successRun_le turns 5 0
  refine ⟨hmain, hle, by omega, by omega, ?_⟩
  intro j hj hk hfail
  have hrun : successRun turns 5 0 = j :=
    successRun_first_fail turns j 5 0 hj (by simpa using hk) (by simpa using hfail)
  omega

/-- Witness for C7: a token-carrying fresh identity whose first turn
succeeds and whose second fails ends with at most 5 chats. -/
theorem conversation_runner_bounds_witness :
    ({ createWallet "a" "k" "m" with jwt := some "t" } : Wallet).jwt = some "t" ∧
    (completeDailyChats (fun k => ⟨0, if k = 0 then some 200 else none⟩)
      { createWallet "a" "k" "m" with jwt := some "t" }).chats ≤ 5 :=
  ⟨rfl,
    (conversation_runner_bounds (fun k => ⟨0, if k = 0 then some 200 else none⟩)
      { createWallet "a" "k" "m" with jwt := some "t" } "t" rfl).2.2.2.1 rfl⟩

theorem unitsFrom_length (env : Nat → UnitEnv) (topics : List String) :
    ∀ (k i : Nat), (unitsFrom env topics i k).length = k := by
  intro k
  induction k with
  | zero => intro i; rfl
  | succ n ih => intro i; simp [unitsFrom, ih (i + 1)]

/-- The loop never changes the date of the usage record. -/
theorem procLoop_date (env : Nat → UnitEnv) (referralCode : String)
    (topics : List String) :
    ∀ (fuel i : Nat) (usage : UsageRec) (saved acc : List Wallet),
      (procLoop env referralCode topics fuel i usage saved acc).usage.date = usage.date := by
  intro fuel
  induction fuel with
  | zero => intro i usage saved acc; rfl
  | succ n ih =>
    intro i usage saved acc
    simp only [procLoop]
    split
    · rfl
    · split
      · rfl
      · exact ih (i + 1) ⟨usage.date, usage.count + 1⟩ _ _

/-- If the cancel flag is first observed set at the checkpoint of unit
`k` (with `k` units still to run), the loop stops there having fully
completed units `i .. i+k-1`: it appended exactly those `k` wallets to
the file and the accumulator, charged the quota `k` times, and reported
cancellation. -/
theorem procLoop_cancel_at (env : Nat → UnitEnv) (referralCode : String)
    (topics : List String) (href : referralCode.length = 6) :
    ∀ (k fuel i : Nat) (usage : UsageRec) (saved acc : List Wallet),
      k < fuel →
      (∀ j, j < k → (env (i + j)).cancel = false) →
      (env (i + k)).cancel = true →
      procLoop env referralCode topics fuel i usage saved acc =
        ⟨⟨usage.date, usage.count + k⟩,
          saved ++ unitsFrom env topics i k,
          acc ++ unitsFrom env topics i k, true⟩ := by
  intro k
  induction k with
  | zero =>
    intro fuel i usage saved acc hf _ hc
    cases fuel with
    | zero => omega
    | succ n =>
      have hci : (env i).cancel = true := by simpa using hc
      cases usage
      simp [procLoop, hci, unitsFrom]
  | succ k ih =>
    intro fuel i usage saved acc hf hk hc
    cases fuel with
    | zero => omega
    | succ n =>
      have h0 : (env i).cancel = false := by simpa using hk 0 (by omega)
      simp only [procLoop, h0, Bool.false_eq_true, if_false, href, ne_eq,
        not_true_eq_false]
      have hrec := ih n (i + 1) ⟨usage.date, usage.count + 1⟩
        (saved ++ [unitWallet env topics i]) (acc ++ [unitWallet env topics i])
        (by omega)
        (fun j hj => by
          have heq : i + 1 + j = i + (j + 1) := by omega
          rw [heq]; exact hk (j + 1) (by omega))
        (by
          have heq : i + 1 + k = i + (k + 1) := by omega
          rw [heq]; exact hc)
      rw [hrec]
      simp [unitsFrom, Nat.add_assoc, Nat.add_comm 1 k]

/-- A denial: the quota gate rejects before any identity is created. -/
theorem processUserRequest_denied (maxLimit : Nat) (today : String)
    (env : Nat → UnitEnv) (count : Nat) (referralCode : String)
    (topics : List String) (st : BotState)
    (h : maxLimit < (normalizeUsage st.usage today).count + count) :
    processUserRequest maxLimit today env count referralCode topics st =
      { usage := normalizeUsage st.usage today
        totalWalletRequests := st.totalWalletRequests
        saved := st.saved
        produced := []
        deniedUsed := some (normalizeUsage st.usage today).count
        cancelled := false } := by
  simp only [processUserRequest]
  rw [if_pos h]

/-- A grant: the gate passes and the unit loop runs. -/
theorem processUserRequest_granted (maxLimit : Nat) (today : String)
    (env : Nat → UnitEnv) (count : Nat) (referralCode : String)
    (topics : List String) (st : BotState)
    (h : (normalizeUsage st.usage today).count + count ≤ maxLimit) :
    processUserRequest maxLimit today env count referralCode topics st =
      { usage := (procLoop env referralCode topics count 0
          (normalizeUsage st.usage today) st.saved []).usage
        totalWalletRequests := st.totalWalletRequests + count
        saved := (procLoop env referralCode topics count 0
          (normalizeUsage st.usage today) st.saved []).saved
        produced := (procLoop env referralCode topics count 0
          (normalizeUsage st.usage today) st.saved []).produced
        deniedUsed := none
        cancelled := (procLoop env referralCode topics count 0
          (normalizeUsage st.usage today) st.saved []).cancelled } := by
  simp only [processUserRequest]
  rw [if_neg (by omega)]

/-- C1: the quota gate grants exactly when the prior same-day count plus
the requested amount is within the ceiling; on denial the request is
rejected before any identity is created (nothing produced, the persisted
wallet file and the lifetime request counter untouched), the quota record
keeps the same-day count it had (and is literally unchanged when it was
already dated today), and the denial message carries the current used
count. -/
theorem quota_gate_spec :
    ∀ (maxLimit : Nat) (today : String) (env : Nat → UnitEnv) (count : Nat)
      (referralCode : String) (topics : List String) (st : BotState),
      ((processUserRequest maxLimit today env count referralCode topics st).deniedUsed
          = none ↔
        (normalizeUsage st.usage today).count + count ≤ maxLimit) ∧
      (maxLimit < (normalizeUsage st.usage today).count + count →
        processUserRequest maxLimit today env count referralCode topics st =
          { usage := normalizeUsage st.usage today
            totalWalletRequests := st.totalWalletRequests
            saved := st.saved
            produced := []
            deniedUsed := some (normalizeUsage st.usage today).count
            cancelled := false }) ∧
      (∀ r, st.usage = some r → r.date = today →
        maxLimit < r.count + count →
        (processUserRequest maxLimit today env count referralCode topics st).usage = r) := by
  intro maxLimit today env count referralCode topics st
  refine ⟨?_, ?_, ?_⟩
  · by_cases h : maxLimit < (normalizeUsage st.usage today).count + count
    · rw [processUserRequest_denied maxLimit today env count referralCode topics st h]
      simp
      omega
    · rw [processUserRequest_granted maxLimit today env count referralCode topics st
        (by omega)]
      simp
      omega
  · intro h
    exact processUserRequest_denied maxLimit today env count referralCode topics st h
  · intro r hr hd h
    have hn : normalizeUsage st.usage today = r := by
      simp [normalizeUsage, hr, hd]
    rw [processUserRequest_denied maxLimit today env count referralCode topics st
      (by rw [hn]; exact h)]
    exact hn

/-- Witness for C1, the end-to-end denial scenario of the spec: usage
already 8 today, ceiling 10, request of 5 is denied with used count 8
and nothing produced or changed. -/
theorem quota_gate_spec_witness :
    (10 : Nat) < (normalizeUsage (some ⟨"2024-01-01", 8⟩) "2024-01-01").count + 5 ∧
    processUserRequest 10 "2024-01-01" (fun _ => sampleUnitEnv false) 5 "ABCDEF"
      ["t1"] ⟨some ⟨"2024-01-01", 8⟩, 7, []⟩ =
      { usage := ⟨"2024-01-01", 8⟩
        totalWalletRequests := 7
        saved := []
        produced := []
        deniedUsed := some 8
        cancelled := false } := by
  have h : (10 : Nat) <
      (normalizeUsage (some ⟨"2024-01-01", 8⟩) "2024-01-01").count + 5 := by
    simp [normalizeUsage]
  refine ⟨h, ?_⟩
  have := (quota_gate_spec 10 "2024-01-01" (fun _ => sampleUnitEnv false) 5 "ABCDEF"
    ["t1"] ⟨some ⟨"2024-01-01", 8⟩, 7, []⟩).2.1 h
  simpa [normalizeUsage] using this

/-- C2: whenever the stored record is dated to a different calendar day,
the request behaves exactly as if the record had first been reset to
`{ date: today, count: 0 }`: the ceiling comparison sees count 0 (the
gate grants exactly when the amount alone fits the ceiling), and the
resulting record is dated today. -/
theorem quota_day_reset :
    ∀ (maxLimit : Nat) (today : String) (env : Nat → UnitEnv) (count : Nat)
      (referralCode : String) (topics : List String) (st : BotState) (r : UsageRec),
      st.usage = some r → r.date ≠ today →
      processUserRequest maxLimit today env count referralCode topics st =
        processUserRequest maxLimit today env count referralCode topics
          { st with usage := some ⟨today, 0⟩ } ∧
      ((processUserRequest maxLimit today env count referralCode topics st).deniedUsed
          = none ↔ count ≤ maxLimit) ∧
      (processUserRequest maxLimit today env count referralCode topics st).usage.date
        = today := by
  intro maxLimit today env count referralCode topics st r hr hd
  have hn : normalizeUsage st.usage today = ⟨today, 0⟩ := by
    simp [normalizeUsage, hr, hd]
  have hn2 : normalizeUsage (some (⟨today, 0⟩ : UsageRec)) today = ⟨today, 0⟩ := by
    simp [normalizeUsage]
  refine ⟨?_, ?_, ?_⟩
  · simp only [processUserRequest, hn]
    cases st
    simp_all [normalizeUsage]
  · by_cases h : maxLimit < (normalizeUsage st.usage today).count + count
    · rw [processUserRequest_denied maxLimit today env count referralCode topics st h]
      rw [hn] at h
      simp at h ⊢
      omega
    · rw [processUserRequest_granted maxLimit today env count referralCode topics st
        (by omega)]
      rw [hn] at h
      simp
      omega
  · by_cases h : maxLimit < (normalizeUsage st.usage today).count + count
    · rw [processUserRequest_denied maxLimit today env count referralCode topics st h,
        hn]
    · rw [processUserRequest_granted maxLimit today env count referralCode topics st
        (by omega)]
      simp only
      rw [procLoop_date, hn]

/-- Witness for C2: a record dated yesterday with count 99 does not block
a request of 5 under ceiling 10 today. -/
theorem quota_day_reset_witness :
    ("2024-01-01" : String) ≠ "2024-01-02" ∧
    (processUserRequest 10 "2024-01-02" (fun _ => sampleUnitEnv true) 5 "ABCDEF"
      ["t1"] ⟨some ⟨"2024-01-01", 99⟩, 0, []⟩).deniedUsed = none := by
  refine ⟨by decide, ?_⟩
  exact ((quota_day_reset 10 "2024-01-02" (fun _ => sampleUnitEnv true) 5 "ABCDEF"
    ["t1"] ⟨some ⟨"2024-01-01", 99⟩, 0, []⟩ ⟨"2024-01-01", 99⟩ rfl
    (by decide)).2.1).mpr (by omega)

/-- C4: if, within a granted job with a valid referral code, the cancel
flag for the actor is first observed set at the per-unit checkpoint of
unit `i` (it was clear at every earlier checkpoint), then exactly `i`
units are produced, exactly those are appended to the persisted wallet
file, the quota is charged exactly `i` times, and the cancellation
notification is emitted.  Units `0 .. i-1`, already past their
checkpoint, run to completion and are kept: cancellation takes effect
only at the next checkpoint. -/
theorem cancellation_checkpoint_spec :
    ∀ (maxLimit : Nat) (today : String) (env : Nat → UnitEnv) (count : Nat)
      (referralCode : String) (topics : List String) (st : BotState) (i : Nat),
      (normalizeUsage st.usage today).count + count ≤ maxLimit →
      referralCode.length = 6 →
      i < count →
      (∀ j, j < i → (env j).cancel = false) →
      (env i).cancel = true →
      (processUserRequest maxLimit today env count referralCode topics st).produced
          = unitsFrom env topics 0 i ∧
      (processUserRequest maxLimit today env count referralCode topics st).produced.length
          = i ∧
      (processUserRequest maxLimit today env count referralCode topics st).saved
          = st.saved ++
            (processUserRequest maxLimit today env count referralCode topics st).produced ∧
      (processUserRequest maxLimit today env count referralCode topics st).usage.count
          = (normalizeUsage st.usage today).count + i ∧
      (processUserRequest maxLimit today env count referralCode topics st).cancelled
          = true ∧
      (processUserRequest maxLimit today env count referralCode topics st).deniedUsed
          = none := by
  intro maxLimit today env count referralCode topics st i hq href hi hbefore hcancel
  rw [processUserRequest_granted maxLimit today env count referralCode topics st hq]
  rw [procLoop_cancel_at env referralCode topics href i count 0
    (normalizeUsage st.usage today) st.saved [] hi
    (fun j hj => by simpa using hbefore j hj) (by simpa using hcancel)]
  refine ⟨by simp, by simp [unitsFrom_length], by simp, rfl, rfl, rfl⟩

/-- Witness for C4: two units requested, flag observed set at the second
checkpoint: exactly one unit is produced. -/
theorem cancellation_checkpoint_spec_witness :
    (1 : Nat) < 2 ∧
    (processUserRequest 10 "2024-01-01" (fun n => sampleUnitEnv (n != 0)) 2 "ABCDEF"
      ["t1"] ⟨none, 0, []⟩).produced.length = 1 := by
  refine ⟨by omega, ?_⟩
  exact (cancellation_checkpoint_spec 10 "2024-01-01" (fun n => sampleUnitEnv (n != 0))
    2 "ABCDEF" ["t1"] ⟨none, 0, []⟩ 1
    (by simp [normalizeUsage])
    (by decide)
    (by omega)
    (fun j hj => by
      have : j = 0 := by omega
      subst this
      rfl)
    rfl).2.1

/-- C9: the in-memory cancel flag, once set by the admin cancel
operation, is never cleared by any subsequent admin operation; and a
wallet-creation request running entirely with the flag set terminates at
its first per-unit checkpoint: nothing is produced, the persisted wallet
file is unchanged, and the quota count is not increased. -/
theorem cancel_flag_permanent :
    (∀ (s : GlobalState) (ops : List AdminOp) (a : Int),
      a ∈ s.pendingCancel → a ∈ (applyAdminOps s ops).pendingCancel) ∧
    (∀ (maxLimit : Nat) (today : String) (env : Nat → UnitEnv) (count : Nat)
      (referralCode : String) (topics : List String) (st : BotState),
      (∀ i, (env i).cancel = true) →
      (processUserRequest maxLimit today env count referralCode topics st).produced
          = [] ∧
      (processUserRequest maxLimit today env count referralCode topics st).saved
          = st.saved ∧
      (processUserRequest maxLimit today env count referralCode topics st).usage.count
          = (normalizeUsage st.usage today).count) := by
  constructor
  · have hone : ∀ (s : GlobalState) (op : AdminOp) (a : Int),
        a ∈ s.pendingCancel → a ∈ (applyAdminOp s op).pendingCancel := by
      intro s op a ha
      cases op <;> simp only [applyAdminOp] <;> (try split) <;> simp [ha]
    intro s ops
    induction ops generalizing s with
    | nil => intro a ha; exact ha
    | cons op rest ih =>
      intro a ha
      exact ih (applyAdminOp s op) a (hone s op a ha)
  · intro maxLimit today env count referralCode topics st hcancel
    by_cases h : maxLimit < (normalizeUsage st.usage today).count + count
    · rw [processUserRequest_denied maxLimit today env count referralCode topics st h]
      refine ⟨?_, ?_, ?_⟩ <;> trivial
    · rw [processUserRequest_granted maxLimit today env count referralCode topics st
        (by omega)]
      cases count with
      | zero => refine ⟨?_, ?_, ?_⟩ <;> trivial
      | succ n =>
        simp only [procLoop, hcancel 0, if_true]
        refine ⟨?_, ?_, ?_⟩ <;> trivial

/-- Witness for C9: the flag for actor 5 survives a sequence of admin
operations, and a request under a permanently set flag produces
nothing. -/
theorem cancel_flag_permanent_witness :
    (5 : Int) ∈ (⟨[], [5], "w", "", 100, ""⟩ : GlobalState).pendingCancel ∧
    (5 : Int) ∈ (applyAdminOps ⟨[], [5], "w", "", 100, ""⟩
      [AdminOp.block 3, AdminOp.unblock 5, AdminOp.setSuffix "x",
        AdminOp.changeMaxLimit 7]).pendingCancel ∧
    (processUserRequest 10 "2024-01-01" (fun _ => sampleUnitEnv true) 3 "ABCDEF"
      ["t1"] ⟨none, 0, []⟩).produced = [] := by
  refine ⟨by simp, ?_, ?_⟩
  · exact cancel_flag_permanent.1 ⟨[], [5], "w", "", 100, ""⟩
      [AdminOp.block 3, AdminOp.unblock 5, AdminOp.setSuffix "x",
        AdminOp.changeMaxLimit 7] 5 (by simp)
  · exact (cancel_flag_permanent.2 10 "2024-01-01" (fun _ => sampleUnitEnv true) 3
      "ABCDEF" ["t1"] ⟨none, 0, []⟩ (fun _ => rfl)).1

/-- Counterexample to C5: the Session State Machine does not enforce at
most one active job per actorId.  One actor sends the complete input
flow twice with no job completion in between (the orchestrator is
invoked without `await` at src/bot.js line 523 and its units wait at
least a second each, so the second flow is handled while the first job
still runs): after the eight messages, two jobs are active at once for
the same actor. -/
theorem concurrent_jobs_counterexample :
    activeJobs (runEvents 100
      [SMEvent.msg "/start", SMEvent.msg "3", SMEvent.msg "ABCDEF",
        SMEvent.msg "t1,t2", SMEvent.msg "/start", SMEvent.msg "3",
        SMEvent.msg "ABCDEF", SMEvent.msg "t1,t2"] initSM) = 2 := by
  decide

/-- One message changes the launch count plus session indicator by at
most the `/start` contribution. -/
theorem stepMsg_launch_bound (maxLimit : Nat) (t : String) (s : SMState) :
    (stepMsg maxLimit t s).launched + sessBit (stepMsg maxLimit t s) ≤
      s.launched + sessBit s + (if t = "/start" then 1 else 0) := by
  obtain ⟨sess, l, c⟩ := s
  by_cases ht : t = "/start"
  · cases sess <;> simp [stepMsg, ht, sessBit]
  · cases sess with
    | none => simp [stepMsg, ht, sessBit]
    | some sess =>
      obtain ⟨stage, cnt, r, tp⟩ := sess
      cases stage with
      | awaitingCount =>
        rcases hp : parseCount t with _ | n <;>
          simp [stepMsg, ht, sessBit, hp] <;> split_ifs <;> simp [sessBit]
      | awaitingRef =>
        simp only [stepMsg, ht, if_false]
        split_ifs <;> simp [sessBit, ht]
      | awaitingTopics =>
        simp only [stepMsg, ht, if_false]
        split_ifs <;> simp [sessBit, ht]

theorem countStarts_cons_msg (t : String) (rest : List SMEvent) :
    countStarts (SMEvent.msg t :: rest) =
      (if t = "/start" then 1 else 0) + countStarts rest := by
  simp only [countStarts, List.filter_cons]
  split_ifs with h1 h2 h2 <;> simp_all <;> omega

theorem countStarts_cons_done (rest : List SMEvent) :
    countStarts (SMEvent.jobDone :: rest) = countStarts rest := by
  simp [countStarts, List.filter_cons]

/-- Invariant: over any event sequence, the launch count plus the
session indicator grows by at most the number of `/start` messages. -/
theorem runEvents_launch_bound (maxLimit : Nat) :
    ∀ (evs : List SMEvent) (s : SMState),
      (runEvents maxLimit evs s).launched + sessBit (runEvents maxLimit evs s) ≤
        s.launched + sessBit s + countStarts evs := by
  intro evs
  induction evs with
  | nil => intro s; simp [runEvents, countStarts]
  | cons e rest ih =>
    intro s
    cases e with
    | msg t =>
      have h1 := ih (stepMsg maxLimit t s)
      have h2 := stepMsg_launch_bound maxLimit t s
      have h3 := countStarts_cons_msg t rest
      have he : runEvents maxLimit (SMEvent.msg t :: rest) s =
          runEvents maxLimit rest (stepMsg maxLimit t s) := rfl
      rw [he, h3]
      omega
    | jobDone =>
      have h1 := ih { s with completed := s.completed + 1 }
      have he : runEvents maxLimit (SMEvent.jobDone :: rest) s =
          runEvents maxLimit rest { s with completed := s.completed + 1 } := rfl
      rw [he, countStarts_cons_done]
      simpa [sessBit] using h1

/-- C5 as amended: the Session State Machine does not bound the number
of simultaneously active jobs for an actor (see the counterexample); what
it does enforce is that every job launch is paid for by a distinct
`/start`: starting from a fresh actor, the number of jobs ever launched
(hence also the number active at any time) never exceeds the number of
`/start` messages processed, because reaching the launching stage
consumes the session record and a new one only arises from `/start`. -/
theorem session_launches_bounded_by_starts :
    ∀ (maxLimit : Nat) (evs : List SMEvent),
      (runEvents maxLimit evs initSM).launched ≤ countStarts evs ∧
      activeJobs (runEvents maxLimit evs initSM) ≤ countStarts evs := by
  intro maxLimit evs
  have h := runEvents_launch_bound maxLimit evs initSM
  have h0 : initSM.launched = 0 := rfl
  have h1 : sessBit initSM = 0 := rfl
  rw [h0, h1] at h
  have h2 : 0 ≤ sessBit (runEvents maxLimit evs initSM) := Nat.zero_le _
  constructor
  · omega
  · simp only [activeJobs]
    omega

theorem getD_mem (l : List String) (i : Nat) (h : i < l.length) : l.getD i "" ∈ l := by
  rw [List.getD_eq_getElem l "" h]
  exact List.getElem_mem h

theorem availList_mem (w : Wallet) (x : String) :
    x ∈ availList w ↔ x ∈ w.topics ∧ x ∉ w.usedTopics := by
  simp [availList, List.mem_filter]

/-- A non-reset call: when some topic is still unused, the returned
topic is drawn from the unused ones and is appended to `usedTopics`;
nothing else changes. -/
theorem getRandomTopic_step (p : Nat) (w : Wallet) (hne : availList w ≠ []) :
    (getRandomTopic p w).1 ∈ availList w ∧
    (getRandomTopic p w).2 =
      { w with usedTopics := w.usedTopics ++ [(getRandomTopic p w).1] } := by
  have htop : w.topics ≠ [] := by
    intro h
    exact hne (by simp [availList, h])
  have hte : w.topics.isEmpty = false := by simpa [List.isEmpty_iff] using htop
  have hae : (availList w).isEmpty = false := by simpa [List.isEmpty_iff] using hne
  have hlen : 0 < (availList w).length := List.length_pos.mpr hne
  have hmod : p % (availList w).length < (availList w).length := Nat.mod_lt _ hlen
  simp only [getRandomTopic, hte, hae, Bool.false_eq_true, if_false]
  exact ⟨getD_mem _ _ hmod, by trivial⟩

theorem availSet_mem (w : Wallet) (x : String) :
    x ∈ availSet w ↔ x ∈ w.topics ∧ x ∉ w.usedTopics := by
  rw [availSet, List.mem_toFinset]
  exact availList_mem w x

theorem availSet_after (w : Wallet) (t : String) :
    availSet { w with usedTopics := w.usedTopics ++ [t] } = (availSet w).erase t := by
  ext x
  simp only [availSet_mem, Finset.mem_erase, List.mem_append, List.mem_singleton]
  constructor
  · rintro ⟨hx, hnot⟩
    exact ⟨fun he => hnot (Or.inr he), hx, fun hu => hnot (Or.inl hu)⟩
  · rintro ⟨hne, hx, hnu⟩
    exact ⟨hx, fun h => h.elim hnu hne⟩

/-- As long as unused topics remain, a run of selector calls emits
pairwise-distinct topics, all drawn from the unused set, appending them
to `usedTopics` in order. -/
theorem runSelector_nodup (picks : List Nat) :
    ∀ (w : Wallet), picks.length ≤ (availSet w).card →
      (runSelector picks w).1.Nodup ∧
      (∀ x ∈ (runSelector picks w).1, x ∈ availSet w) ∧
      (runSelector picks w).2.topics = w.topics ∧
      (runSelector picks w).2.usedTopics = w.usedTopics ++ (runSelector picks w).1 := by
  induction picks with
  | nil => intro w _; simp [runSelector]
  | cons p ps ih =>
    intro w hcard
    have hlen : (p :: ps).length = ps.length + 1 := rfl
    have hpos : 0 < (availSet w).card := by omega
    have hne : availList w ≠ [] := by
      intro h
      rw [availSet, h] at hpos
      simp at hpos
    obtain ⟨hmem, hw1⟩ := getRandomTopic_step p w hne
    have hmemSet : (getRandomTopic p w).1 ∈ availSet w :=
      List.mem_toFinset.mpr hmem
    have hAfter : availSet (getRandomTopic p w).2 =
        (availSet w).erase (getRandomTopic p w).1 := by
      rw [hw1]
      exact availSet_after w _
    have hcard2 : ps.length ≤ (availSet (getRandomTopic p w).2).card := by
      rw [hAfter, Finset.card_erase_of_mem hmemSet]
      omega
    obtain ⟨ihnd, ihsub, ihtop, ihused⟩ := ih (getRandomTopic p w).2 hcard2
    have hnotmem : (getRandomTopic p w).1 ∉ (runSelector ps (getRandomTopic p w).2).1 := by
      intro hmem2
      have hx := ihsub _ hmem2
      rw [hAfter] at hx
      exact (Finset.mem_erase.mp hx).1 rfl
    refine ⟨?_, ?_, ?_, ?_⟩
    · simp only [runSelector]
      exact List.nodup_cons.mpr ⟨hnotmem, ihnd⟩
    · intro x hx
      simp only [runSelector, List.mem_cons] at hx
      rcases hx with hx | hx
      · rw [hx]; exact hmemSet
      · have h2 := ihsub x hx
        rw [hAfter] at h2
        exact Finset.mem_of_mem_erase h2
    · simp only [runSelector]
      rw [ihtop, hw1]
    · simp only [runSelector]
      rw [ihused, hw1]
      simp [List.append_assoc]

/-- C8: the Topic Selector never returns the same topic twice before all
topics have been used once since the last reset: starting from an empty
used-set, any run of calls no longer than the number of distinct topics
emits pairwise-distinct topics from the list.  When every topic has been
used, the call resets `usedTopics` to empty and returns a topic drawn
from the full list, with every position of the list reachable by some
draw (the uniform draw ranges over the whole list). -/
theorem topic_selector_spec :
    (∀ (picks : List Nat) (w : Wallet), w.usedTopics = [] →
      picks.length ≤ w.topics.toFinset.card →
      (runSelector picks w).1.Nodup ∧
      ∀ x ∈ (runSelector picks w).1, x ∈ w.topics) ∧
    (∀ (p : Nat) (w : Wallet), w.topics ≠ [] →
      (∀ x ∈ w.topics, x ∈ w.usedTopics) →
      (getRandomTopic p w).2.usedTopics = [] ∧ (getRandomTopic p w).1 ∈ w.topics) ∧
    (∀ (w : Wallet), w.topics ≠ [] →
      (∀ x ∈ w.topics, x ∈ w.usedTopics) →
      ∀ x ∈ w.topics, ∃ p, (getRandomTopic p w).1 = x) := by
  have hexhaust : ∀ (w : Wallet), w.topics ≠ [] →
      (∀ x ∈ w.topics, x ∈ w.usedTopics) →
      (availList w).isEmpty = true := by
    intro w _ hall
    have : availList w = [] := by
      rw [availList, List.filter_eq_nil_iff]
      intro x hx
      simp [hall x hx]
    simp [this]
  refine ⟨?_, ?_, ?_⟩
  · intro picks w hu hcard
    have ha : availList w = w.topics := by
      simp [availList, hu]
    have hset : availSet w = w.topics.toFinset := by
      rw [availSet, ha]
    obtain ⟨hnd, hsub, _, _⟩ := runSelector_nodup picks w (by rw [hset]; exact hcard)
    refine ⟨hnd, fun x hx => ?_⟩
    have := hsub x hx
    rw [hset] at this
    exact List.mem_toFinset.mp this
  · intro p w htop hall
    have hte : w.topics.isEmpty = false := by simpa [List.isEmpty_iff] using htop
    have hae := hexhaust w htop hall
    have hlen : 0 < w.topics.length := List.length_pos.mpr htop
    have hmod : p % w.topics.length < w.topics.length := Nat.mod_lt _ hlen
    simp only [getRandomTopic, hte, Bool.false_eq_true, if_false, hae, if_true]
    exact ⟨by trivial, getD_mem _ _ hmod⟩
  · intro w htop hall x hx
    have hte : w.topics.isEmpty = false := by simpa [List.isEmpty_iff] using htop
    have hae := hexhaust w htop hall
    obtain ⟨i, hi, hgi⟩ := by simpa using List.mem_iff_getElem.mp hx
    refine ⟨i, ?_⟩
    simp only [getRandomTopic, hte, Bool.false_eq_true, if_false, hae, if_true]
    rw [Nat.mod_eq_of_lt hi, List.getD_eq_getElem w.topics "" hi]
    exact hgi

/-- Witness for C8: with two fresh topics, two draws yield two distinct
topics. -/
theorem topic_selector_spec_witness :
    ([0, 0] : List Nat).length ≤ (["t1", "t2"] : List String).toFinset.card ∧
    (runSelector [0, 0]
      { createWallet "a" "k" "m" with topics := ["t1", "t2"] }).1.Nodup :=
  ⟨by decide,
    (topic_selector_spec.1 [0, 0]
      { createWallet "a" "k" "m" with topics := ["t1", "t2"] } rfl (by decide)).1⟩
